import Mathlib

/-!
Verification of the `backend_centra` Django backend against its
natural-language specification.  The definitions below are a shallow
embedding of the Python source:

* `apps/job_pipeline/models.py` — `JobPipeline.save`,
  `JobPipeline.advance_stage`, `JobPipeline.update_from_related_object`,
  `PipelineStageTransition`;
* `apps/job_pipeline/signals.py` — the four `post_save` handlers;
* `apps/certifications/models.py` — `Certification.save`;
* `apps/business_development/serializers.py` — `ContractSerializer.create`;
* `apps/business_development/contract_template_service.py` —
  `ContractTemplateService._generate_contract_number`.

Machine values are modelled with `Nat`/`Int`; dates and datetimes with
integer day/instant numbers; Python `raise` with `Option`/error flags.
-/

namespace Centra

/-! ## Decimal formatting (Python `str(n)` and `f"{n:0wd}"`) -/

/-- Little-endian base-10 digits of `n`, computed with explicit fuel so the
definition is structurally recursive (and therefore kernel-evaluable).
With fuel at least `n` this agrees with `Nat.digits 10 n`. -/
def digitsLE (fuel n : Nat) : List Nat :=
  match fuel with
  | 0 => []
  | f + 1 => if n = 0 then [] else n % 10 :: digitsLE f (n / 10)

theorem digitsLE_eq_digits : ∀ (fuel n : Nat), n ≤ fuel → digitsLE fuel n = Nat.digits 10 n := by
  intro fuel
  induction fuel with
  | zero =>
    intro n hn
    interval_cases n
    simp [digitsLE]
  | succ f ih =>
    intro n hn
    by_cases h0 : n = 0
    · simp [digitsLE, h0]
    · have hpos : 0 < n := Nat.pos_of_ne_zero h0
      have hdiv : n / 10 ≤ f := by
        have h1 : n / 10 < n := Nat.div_lt_self hpos (by norm_num)
        omega
      rw [digitsLE, if_neg h0, ih _ hdiv, Nat.digits_def' (by norm_num : (1:Nat) < 10) hpos]

/-- Big-endian decimal digit characters of `n` — Python `str(n)` as a char list. -/
def natDigitsBE (n : Nat) : List Char :=
  if n = 0 then ['0'] else ((digitsLE n n).map Nat.digitChar).reverse

/-- Python `str(n)` for a natural number. -/
def natStr (n : Nat) : String := ⟨natDigitsBE n⟩

/-- Python `f"{n:0wd}"`: decimal digits of `n`, left-padded with `'0'` to width `w`. -/
def padNum (w n : Nat) : String :=
  ⟨List.replicate (w - (natDigitsBE n).length) '0' ++ natDigitsBE n⟩

/-- Decimal value of a digit character. -/
def charVal (c : Char) : Nat := c.toNat - 48

theorem charVal_digitChar {d : Nat} (hd : d < 10) : charVal (Nat.digitChar d) = d := by
  interval_cases d <;> rfl

/-- Decode a zero-padded big-endian decimal char list back to the number.
Left inverse of the padding used by `padNum`, for any width. -/
def unpadNum (l : List Char) : Nat :=
  Nat.ofDigits 10 (((l.dropWhile (fun c => c = '0')).reverse).map charVal)

theorem dropWhile_replicate_append (k : Nat) (l : List Char) :
    List.dropWhile (fun c => c = '0') (List.replicate k '0' ++ l) =
      List.dropWhile (fun c => c = '0') l := by
  induction k with
  | zero => simp
  | succ m ih =>
    rw [List.replicate_succ, List.cons_append, List.dropWhile_cons, if_pos (by decide)]
    exact ih

theorem natDigitsBE_eq (n : Nat) :
    natDigitsBE n = if n = 0 then ['0'] else ((Nat.digits 10 n).map Nat.digitChar).reverse := by
  unfold natDigitsBE
  rw [digitsLE_eq_digits n n (le_refl n)]

theorem dropWhile_natDigitsBE (n : Nat) (hn : n ≠ 0) :
    List.dropWhile (fun c => c = '0') (natDigitsBE n) = natDigitsBE n := by
  have hne : Nat.digits 10 n ≠ [] := Nat.digits_ne_nil_iff_ne_zero.mpr hn
  have hlast := Nat.getLast_digit_ne_zero 10 hn
  rw [natDigitsBE_eq, if_neg hn]
  rcases hrev : ((Nat.digits 10 n).map Nat.digitChar).reverse with _ | ⟨c, rest⟩
  · exfalso
    have : (Nat.digits 10 n).map Nat.digitChar = [] := by
      have := congrArg List.reverse hrev
      simpa using this
    exact hne (List.map_eq_nil_iff.mp this)
  · have hc : c = Nat.digitChar ((Nat.digits 10 n).getLast hne) := by
      have h1 : ((Nat.digits 10 n).map Nat.digitChar).reverse.head? = some c := by
        rw [hrev]; rfl
      rw [List.head?_reverse] at h1
      have h2 : ((Nat.digits 10 n).map Nat.digitChar).getLast? =
          some (Nat.digitChar ((Nat.digits 10 n).getLast hne)) := by
        rw [List.getLast?_map, List.getLast?_eq_getLast _ hne]
        rfl
      rw [h1] at h2
      exact Option.some.inj h2
    have hlt : (Nat.digits 10 n).getLast hne < 10 :=
      Nat.digits_lt_base (by norm_num) (List.getLast_mem hne)
    have hcne : ¬ (c = '0') := by
      rw [hc]
      intro hzero
      apply hlast
      have h0 := hlt
      interval_cases h : (Nat.digits 10 n).getLast hne <;> simp_all [Nat.digitChar]
    rw [List.dropWhile_cons, if_neg (by simpa using hcne)]

theorem unpadNum_pad (w n : Nat) :
    unpadNum (List.replicate (w - (natDigitsBE n).length) '0' ++ natDigitsBE n) = n := by
  unfold unpadNum
  rw [dropWhile_replicate_append]
  by_cases h0 : n = 0
  · subst h0
    simp [natDigitsBE, List.dropWhile, Nat.ofDigits]
  · rw [dropWhile_natDigitsBE n h0, natDigitsBE_eq, if_neg h0, List.reverse_reverse,
      List.map_map]
    have hmap : (Nat.digits 10 n).map (charVal ∘ Nat.digitChar) = Nat.digits 10 n := by
      rw [List.map_congr_left (g := id), List.map_id]
      intro d hd
      exact charVal_digitChar (Nat.digits_lt_base (by norm_num) hd)
    rw [hmap, Nat.ofDigits_digits]

theorem padNum_inj {w a b : Nat} (h : padNum w a = padNum w b) : a = b := by
  have hdata : (List.replicate (w - (natDigitsBE a).length) '0' ++ natDigitsBE a) =
      (List.replicate (w - (natDigitsBE b).length) '0' ++ natDigitsBE b) := by
    have := congrArg String.data h
    simpa [padNum] using this
  have ha := unpadNum_pad w a
  have hb := unpadNum_pad w b
  rw [hdata] at ha
  rw [ha] at hb
  exact hb

/-! ## Job pipeline data model (`apps/job_pipeline/models.py`) -/

/-- Embedding of `JobPipeline.STAGE_CHOICES` — the nine pipeline stages. -/
inductive Stage
  | LEAD
  | OPPORTUNITY
  | CONTRACT
  | AUDIT_SCHEDULED
  | AUDIT_IN_PROGRESS
  | AUDIT_COMPLETED
  | CERTIFICATE_ISSUED
  | SURVEILLANCE_DUE
  | CLOSED
deriving DecidableEq, Fintype

/-- The hand-coded `valid_progressions` dict of `JobPipeline.advance_stage`.
`CLOSED` is absent from the dict, so `dict.get(stage, [])` yields `[]`. -/
def validProgressions : Stage → List Stage
  | .LEAD => [.OPPORTUNITY, .CLOSED]
  | .OPPORTUNITY => [.CONTRACT, .CLOSED]
  | .CONTRACT => [.AUDIT_SCHEDULED, .CLOSED]
  | .AUDIT_SCHEDULED => [.AUDIT_IN_PROGRESS]
  | .AUDIT_IN_PROGRESS => [.AUDIT_COMPLETED]
  | .AUDIT_COMPLETED => [.CERTIFICATE_ISSUED, .SURVEILLANCE_DUE]
  | .CERTIFICATE_ISSUED => [.SURVEILLANCE_DUE, .CLOSED]
  | .SURVEILLANCE_DUE => [.AUDIT_SCHEDULED, .CLOSED]
  | .CLOSED => []

/-- A `JobPipeline` row.  `number` and the FK/date columns are nullable;
datetimes are modelled as integer instants, user FKs as user ids. -/
structure Pipeline where
  id : Nat
  number : Option Nat
  pipeline_id : String
  client_name : String
  service_description : String
  estimated_value : Option Int
  currency : String
  current_stage : Stage
  status : String
  lead : Option Nat
  opportunity : Option Nat
  contract : Option Nat
  lead_created_date : Option Nat
  opportunity_created_date : Option Nat
  contract_signed_date : Option Nat
  audit_scheduled_date : Option Nat
  audit_completed_date : Option Nat
  certificate_issued_date : Option Nat
  owner : Option Nat
  created_by : Option Nat
deriving DecidableEq

/-- A `PipelineStageTransition` row. -/
structure StageTransition where
  pipeline : Nat
  from_stage : Stage
  to_stage : Stage
  transitioned_by : Option Nat
  transitioned_at : Nat
deriving DecidableEq

/-- Python truthiness of `self.number` (`not self.number`): `None` and `0` are falsy. -/
def numberFalsy : Option Nat → Bool
  | none => true
  | some n => n == 0

/-- Embedding of `JobPipeline.objects.order_by('-number').first()`, then
`last_pipeline.number + 1 if last_pipeline and last_pipeline.number else 1`:
the successor of the largest stored number (1 when there is none). -/
def maxPipelineNumber (db : List Pipeline) : Nat :=
  (db.filterMap Pipeline.number).foldr Nat.max 0

/-- Embedding of `JobPipeline.save` (models.py 42-50): assign a sequential `number` when
the field is falsy, then derive `pipeline_id = f"PL-{number:05d}"` when empty. -/
def pipelineSave (db : List Pipeline) (p : Pipeline) : Pipeline :=
  let n : Nat := if numberFalsy p.number then maxPipelineNumber db + 1 else p.number.getD 0
  let pid : String := if p.pipeline_id = "" then "PL-" ++ padNum 5 n else p.pipeline_id
  { p with number := some n, pipeline_id := pid }

/-- Embedding of `JobPipeline.advance_stage` (models.py 154-199).  `none` models the
`ValueError` raised when `new_stage` is not in the dict entry for the current
stage; the raise happens before any mutation.  On success the stage is set,
the timeline field for the new stage (when one exists) receives `now`,
`self.save()` runs, and one `PipelineStageTransition` row is produced. -/
def advanceStage (db : List Pipeline) (p : Pipeline) (new_stage : Stage)
    (user : Option Nat) (now : Nat) : Option (Pipeline × StageTransition) :=
  if new_stage ∈ validProgressions p.current_stage then
    let old_stage := p.current_stage
    let p1 := { p with current_stage := new_stage }
    let p2 :=
      if new_stage = .OPPORTUNITY then { p1 with opportunity_created_date := some now }
      else if new_stage = .CONTRACT then { p1 with contract_signed_date := some now }
      else if new_stage = .AUDIT_SCHEDULED then { p1 with audit_scheduled_date := some now }
      else if new_stage = .AUDIT_COMPLETED then { p1 with audit_completed_date := some now }
      else if new_stage = .CERTIFICATE_ISSUED then { p1 with certificate_issued_date := some now }
      else p1
    let p3 := pipelineSave db p2
    some (p3, { pipeline := p3.id, from_stage := old_stage, to_stage := new_stage,
                transitioned_by := user, transitioned_at := now })
  else
    none

/-- Embedding of `advance_stage` as a transformer of the caller-visible state
(the pipeline row and the transition-log table), with an error flag.
The `ValueError` branch leaves the state untouched, mirroring that the
Python `raise` precedes every mutation in the method body. -/
def advanceStageRun (db : List Pipeline) (p : Pipeline) (ts : List StageTransition)
    (new_stage : Stage) (user : Option Nat) (now : Nat) :
    (Pipeline × List StageTransition) × Bool :=
  match advanceStage db p new_stage user now with
  | some (p', t) => ((p', ts ++ [t]), false)
  | none => ((p, ts), true)

/-- The six timeline timestamp columns of a pipeline, as a tuple. -/
def timelineFields (p : Pipeline) :
    Option Nat × Option Nat × Option Nat × Option Nat × Option Nat × Option Nat :=
  (p.lead_created_date, p.opportunity_created_date, p.contract_signed_date,
   p.audit_scheduled_date, p.audit_completed_date, p.certificate_issued_date)

/-- A concrete pipeline row used to instantiate theorems. -/
def basePipeline : Pipeline :=
  { id := 1, number := some 7, pipeline_id := "PL-00007", client_name := "Acme",
    service_description := "ISO 9001 certification", estimated_value := none,
    currency := "USD", current_stage := .AUDIT_SCHEDULED, status := "ACTIVE",
    lead := none, opportunity := none, contract := none,
    lead_created_date := none, opportunity_created_date := none,
    contract_signed_date := none, audit_scheduled_date := none,
    audit_completed_date := none, certificate_issued_date := none,
    owner := none, created_by := none }

/-- C1. `advance_stage(p, s)` raises `ValueError` iff `s` is not listed as a
successor of `p.current_stage` in the `valid_progressions` dict, and on error
the pipeline row (stage and all timeline fields included) and the set of
`PipelineStageTransition` rows are unchanged. -/
theorem advance_stage_valueError_iff (db : List Pipeline) (p : Pipeline)
    (ts : List StageTransition) (s : Stage) (u : Option Nat) (now : Nat) :
    ((advanceStageRun db p ts s u now).2 = true ↔ s ∉ validProgressions p.current_stage)
    ∧ ((advanceStageRun db p ts s u now).2 = true →
        (advanceStageRun db p ts s u now).1 = (p, ts)) := by
  unfold advanceStageRun advanceStage
  by_cases h : s ∈ validProgressions p.current_stage <;> simp [h]

/-- Instantiation of `advance_stage_valueError_iff`: from `AUDIT_SCHEDULED`,
requesting `CLOSED` errors and leaves the state untouched. -/
theorem advance_stage_valueError_iff_witness :
    (advanceStageRun [] basePipeline [] .CLOSED none 3).2 = true
    ∧ (advanceStageRun [] basePipeline [] .CLOSED none 3).1 = (basePipeline, []) :=
  ⟨by decide,
   (advance_stage_valueError_iff [] basePipeline [] .CLOSED none 3).2 (by decide)⟩

/-- C2 counterexample. Advancing `AUDIT_SCHEDULED → AUDIT_IN_PROGRESS` is a
valid progression and succeeds, yet no timeline timestamp field changes: the
transition time is recorded in no timeline field, contrary to the claim that
every valid advance performs a timestamp update for the new stage. -/
theorem advance_stage_no_timestamp_for_in_progress :
    (advanceStageRun [] basePipeline [] .AUDIT_IN_PROGRESS none 5).2 = false
    ∧ ((advanceStageRun [] basePipeline [] .AUDIT_IN_PROGRESS none 5).1.1).current_stage
        = .AUDIT_IN_PROGRESS
    ∧ timelineFields ((advanceStageRun [] basePipeline [] .AUDIT_IN_PROGRESS none 5).1.1)
        = timelineFields basePipeline := by
  decide

/-- C2 (amended). For a valid successor `s`, `advance_stage` sets
`current_stage` to `s`, saves, and appends exactly one transition row with the
old stage as `from_stage` and `s` as `to_stage`; the timeline field
corresponding to `s` is set to the transition time when `s` is one of
`OPPORTUNITY`, `CONTRACT`, `AUDIT_SCHEDULED`, `AUDIT_COMPLETED`,
`CERTIFICATE_ISSUED`, while for `AUDIT_IN_PROGRESS`, `SURVEILLANCE_DUE` and
`CLOSED` no timeline field is updated. -/
theorem advance_stage_valid_updates (db : List Pipeline) (p : Pipeline)
    (ts : List StageTransition) (s : Stage) (u : Option Nat) (now : Nat)
    (h : s ∈ validProgressions p.current_stage) :
    (advanceStageRun db p ts s u now).2 = false
    ∧ ((advanceStageRun db p ts s u now).1.1).current_stage = s
    ∧ (advanceStageRun db p ts s u now).1.2 =
        ts ++ [{ pipeline := p.id, from_stage := p.current_stage, to_stage := s,
                 transitioned_by := u, transitioned_at := now }]
    ∧ (s = .OPPORTUNITY →
        ((advanceStageRun db p ts s u now).1.1).opportunity_created_date = some now)
    ∧ (s = .CONTRACT →
        ((advanceStageRun db p ts s u now).1.1).contract_signed_date = some now)
    ∧ (s = .AUDIT_SCHEDULED →
        ((advanceStageRun db p ts s u now).1.1).audit_scheduled_date = some now)
    ∧ (s = .AUDIT_COMPLETED →
        ((advanceStageRun db p ts s u now).1.1).audit_completed_date = some now)
    ∧ (s = .CERTIFICATE_ISSUED →
        ((advanceStageRun db p ts s u now).1.1).certificate_issued_date = some now)
    ∧ ((s = .AUDIT_IN_PROGRESS ∨ s = .SURVEILLANCE_DUE ∨ s = .CLOSED) →
        timelineFields ((advanceStageRun db p ts s u now).1.1) = timelineFields p) := by
  cases s <;>
    simp [advanceStageRun, advanceStage, h, pipelineSave, timelineFields]

/-- Instantiation of `advance_stage_valid_updates` at
`CONTRACT → AUDIT_SCHEDULED`. -/
theorem advance_stage_valid_updates_witness :
    Stage.AUDIT_SCHEDULED ∈ validProgressions Stage.CONTRACT
    ∧ ((advanceStageRun [] { basePipeline with current_stage := .CONTRACT } []
          .AUDIT_SCHEDULED none 9).1.1).audit_scheduled_date = some 9 :=
  ⟨by decide,
   (advance_stage_valid_updates [] { basePipeline with current_stage := .CONTRACT } []
      .AUDIT_SCHEDULED none 9 (by decide)).2.2.2.2.2.1 rfl⟩

/-- C9. `CLOSED` is terminal: from a pipeline whose current stage is
`CLOSED`, every `advance_stage` call raises `ValueError`, whatever the
requested stage. -/
theorem closed_stage_is_terminal (db : List Pipeline) (p : Pipeline)
    (ts : List StageTransition) (s : Stage) (u : Option Nat) (now : Nat)
    (h : p.current_stage = .CLOSED) :
    (advanceStageRun db p ts s u now).2 = true := by
  unfold advanceStageRun advanceStage
  rw [h]
  cases s <;> simp [validProgressions]

/-- Instantiation of `closed_stage_is_terminal` at a concrete closed pipeline. -/
theorem closed_stage_is_terminal_witness :
    ({ basePipeline with current_stage := .CLOSED } : Pipeline).current_stage = .CLOSED
    ∧ (advanceStageRun [] { basePipeline with current_stage := .CLOSED } []
         .LEAD none 0).2 = true :=
  ⟨rfl, closed_stage_is_terminal [] _ [] .LEAD none 0 rfl⟩

/-! ## The stage-transition graph as a relation -/

/-- One step of the stage graph: `b` is listed as a successor of `a` in the
`valid_progressions` dict. -/
def stageStep (a b : Stage) : Prop := b ∈ validProgressions a

instance stageStepDecidable : DecidableRel stageStep :=
  fun a b => inferInstanceAs (Decidable (b ∈ validProgressions a))

/-- Number of occurrences of stage `x` in a stage sequence. -/
def occCount (x : Stage) (l : List Stage) : Nat :=
  (l.filter (fun s => s = x)).length

/-- Rank of a stage: strictly increasing along every edge that leaves
`LEAD`, `OPPORTUNITY`, `CONTRACT`; the audit/surveillance stages share a
rank because the graph cycles among them. -/
def stageRank : Stage → Nat
  | .LEAD => 0
  | .OPPORTUNITY => 1
  | .CONTRACT => 2
  | .AUDIT_SCHEDULED => 3
  | .AUDIT_IN_PROGRESS => 3
  | .AUDIT_COMPLETED => 3
  | .CERTIFICATE_ISSUED => 3
  | .SURVEILLANCE_DUE => 3
  | .CLOSED => 4

theorem stageStep_rank_le : ∀ a b : Stage, stageStep a b → stageRank a ≤ stageRank b := by
  decide

theorem chain_rank_le (a : Stage) (l : List Stage)
    (h : List.Chain' stageStep (a :: l)) : ∀ b ∈ l, stageRank a ≤ stageRank b := by
  induction l generalizing a with
  | nil => simp
  | cons c l' ih =>
    intro b hb
    have hac : stageStep a c := (List.chain'_cons.mp h).1
    have hrest : List.Chain' stageStep (c :: l') := (List.chain'_cons.mp h).2
    rcases List.mem_cons.mp hb with rfl | hb'
    · exact stageStep_rank_le a b hac
    · exact le_trans (stageStep_rank_le a c hac) (ih c hrest b hb')

/-- A stage whose outgoing edges all strictly increase the rank, and which is
alone in its rank, occurs at most once in any valid transition sequence. -/
theorem occCount_le_one (x : Stage)
    (hstrict : ∀ b, stageStep x b → stageRank x < stageRank b)
    (hsole : ∀ a, stageRank a = stageRank x → a = x) :
    ∀ l, List.Chain' stageStep l → occCount x l ≤ 1 := by
  intro l
  induction l with
  | nil => intro _; simp [occCount]
  | cons a l' ih =>
    intro h
    have htail : List.Chain' stageStep l' := by
      cases l' with
      | nil => simp
      | cons c l'' => exact (List.chain'_cons.mp h).2
    by_cases hax : a = x
    · subst hax
      have hnot : ∀ b ∈ l', ¬(b = a) := by
        cases l' with
        | nil => simp
        | cons c l'' =>
          have hac : stageStep a c := (List.chain'_cons.mp h).1
          have hrest : List.Chain' stageStep (c :: l'') := (List.chain'_cons.mp h).2
          intro b hb heq
          have hcb : stageRank c ≤ stageRank b := by
            rcases List.mem_cons.mp hb with rfl | hb'
            · exact le_refl _
            · exact chain_rank_le c l'' hrest b hb'
          have hlt : stageRank a < stageRank b :=
            lt_of_lt_of_le (hstrict c hac) hcb
          rw [heq] at hlt
          exact lt_irrefl _ hlt
      have hfil : l'.filter (fun s => s = a) = [] := by
        rw [List.filter_eq_nil_iff]
        intro b hb
        simpa using hnot b hb
      simp [occCount, List.filter_cons, hfil]
    · have hstep : occCount x (a :: l') = occCount x l' := by
        simp [occCount, List.filter_cons, hax]
      rw [hstep]
      exact ih htail

/-- C3 counterexample. The transition graph is not acyclic: the valid
sequence `LEAD → OPPORTUNITY → CONTRACT → AUDIT_SCHEDULED → AUDIT_IN_PROGRESS
→ AUDIT_COMPLETED → SURVEILLANCE_DUE → AUDIT_SCHEDULED` starts at `LEAD` and
enters `AUDIT_SCHEDULED` a second time. -/
theorem stage_graph_has_cycle :
    List.Chain' stageStep
      [Stage.LEAD, .OPPORTUNITY, .CONTRACT, .AUDIT_SCHEDULED, .AUDIT_IN_PROGRESS,
       .AUDIT_COMPLETED, .SURVEILLANCE_DUE, .AUDIT_SCHEDULED]
    ∧ occCount .AUDIT_SCHEDULED
      [Stage.LEAD, .OPPORTUNITY, .CONTRACT, .AUDIT_SCHEDULED, .AUDIT_IN_PROGRESS,
       .AUDIT_COMPLETED, .SURVEILLANCE_DUE, .AUDIT_SCHEDULED] = 2 := by
  constructor
  · simp [List.chain'_cons, stageStep, validProgressions]
  · decide

/-- C3 (amended). The stage graph is not linear — it contains the
surveillance re-audit cycle — but the pre-audit and terminal stages are
never revisited: in every sequence of valid transitions starting at `LEAD`,
each of `LEAD`, `OPPORTUNITY`, `CONTRACT` and `CLOSED` is entered at most
once. -/
theorem stage_graph_no_revisit_outside_loop (l : List Stage)
    (h : List.Chain' stageStep (Stage.LEAD :: l)) :
    ∀ x : Stage, (x = .LEAD ∨ x = .OPPORTUNITY ∨ x = .CONTRACT ∨ x = .CLOSED) →
      occCount x (Stage.LEAD :: l) ≤ 1 := by
  intro x hx
  rcases hx with rfl | rfl | rfl | rfl <;>
    exact occCount_le_one _ (by decide) (by decide) _ h

/-- Instantiation of `stage_graph_no_revisit_outside_loop` on the two-stage
sequence `LEAD → OPPORTUNITY`. -/
theorem stage_graph_no_revisit_outside_loop_witness :
    List.Chain' stageStep [Stage.LEAD, Stage.OPPORTUNITY]
    ∧ occCount Stage.LEAD [Stage.LEAD, Stage.OPPORTUNITY] ≤ 1 :=
  ⟨by simp [List.chain'_cons, stageStep, validProgressions],
   stage_graph_no_revisit_outside_loop [Stage.OPPORTUNITY]
     (by simp [List.chain'_cons, stageStep, validProgressions]) .LEAD (Or.inl rfl)⟩

/-! ## Sequential pipeline numbering (`JobPipeline.save`) -/

theorem foldr_max_le_of_mem {a : Nat} {l : List Nat} (ha : a ∈ l) :
    a ≤ l.foldr Nat.max 0 := by
  induction l with
  | nil => cases ha
  | cons b l' ih =>
    rcases List.mem_cons.mp ha with rfl | h'
    · exact Nat.le_max_left _ _
    · exact le_trans (ih h') (Nat.le_max_right _ _)

theorem mem_number_le_max {p' : Pipeline} {db : List Pipeline} (h : p' ∈ db) {n : Nat}
    (hn : p'.number = some n) : n ≤ maxPipelineNumber db :=
  foldr_max_le_of_mem (List.mem_filterMap.mpr ⟨p', h, hn⟩)

/-- C10. `JobPipeline.save` assigns to every pipeline saved without a
number the successor of the largest stored number (`1` over an empty or
number-free table, since the fold starts at `0`); when `pipeline_id` is empty
it becomes `"PL-"` followed by the number zero-padded to five digits; after
any save the row has a number and a non-empty `pipeline_id`; and a second
pipeline saved without a number, sequentially after the first, receives a
different number. -/
theorem pipeline_save_numbering (db : List Pipeline) (p : Pipeline) :
    ((pipelineSave db p).number).isSome = true
    ∧ (pipelineSave db p).pipeline_id ≠ ""
    ∧ (p.number = none →
        (pipelineSave db p).number = some (maxPipelineNumber db + 1)
        ∧ (p.pipeline_id = "" →
            (pipelineSave db p).pipeline_id = "PL-" ++ padNum 5 (maxPipelineNumber db + 1)))
    ∧ (∀ q : Pipeline, q.number = none →
        (pipelineSave db p).number ≠ (pipelineSave (db ++ [pipelineSave db p]) q).number) := by
  refine ⟨by simp [pipelineSave], ?_, ?_, ?_⟩
  · by_cases hid : p.pipeline_id = ""
    · simp only [pipelineSave, hid, if_pos]
      intro hcontra
      have hdata := congrArg String.data hcontra
      simp [String.data_append] at hdata
    · simp [pipelineSave, hid]
  · intro hp
    refine ⟨by simp [pipelineSave, hp, numberFalsy], ?_⟩
    intro hid
    simp [pipelineSave, hp, hid, numberFalsy]
  · intro q hq
    obtain ⟨n, hn⟩ : ∃ n, (pipelineSave db p).number = some n := by
      simp [pipelineSave]
    have hmem : pipelineSave db p ∈ db ++ [pipelineSave db p] := by simp
    have hle : n ≤ maxPipelineNumber (db ++ [pipelineSave db p]) :=
      mem_number_le_max hmem hn
    have hq' : (pipelineSave (db ++ [pipelineSave db p]) q).number
        = some (maxPipelineNumber (db ++ [pipelineSave db p]) + 1) := by
      simp [pipelineSave, hq, numberFalsy]
    rw [hn, hq']
    intro hcontra
    have := Option.some.inj hcontra
    omega

/-- Instantiation of `pipeline_save_numbering` over an empty table. -/
theorem pipeline_save_numbering_witness :
    ({ basePipeline with number := none } : Pipeline).number = none
    ∧ (pipelineSave [] { basePipeline with number := none }).number
        = some (maxPipelineNumber [] + 1)
    ∧ (pipelineSave [] basePipeline).number
        ≠ (pipelineSave ([] ++ [pipelineSave [] basePipeline])
            { basePipeline with number := none }).number :=
  ⟨rfl,
   ((pipeline_save_numbering [] { basePipeline with number := none }).2.2.1 rfl).1,
   (pipeline_save_numbering [] basePipeline).2.2.2
     { basePipeline with number := none } rfl⟩

/-! ## Certification lifecycle (`apps/certifications/models.py`) -/

/-- Embedding of `Certification.STATUS_CHOICES` — the stored value of each choice pair. -/
def certificationStatusChoices : List String :=
  ["pending", "active", "expiring-soon", "expired", "suspended", "revoked"]

/-- A `Certification` row; dates are modelled as integer day numbers. -/
structure Certification where
  id : Nat
  client : Nat
  certificate_number : String
  issue_date : Int
  expiry_date : Option Int
  status : String
  scope : String
deriving DecidableEq

/-- Embedding of `Certification.save` (models.py 174-193): when `expiry_date` is set and
the status is neither `suspended` nor `revoked`, recompute the status from
`days_until_expiry = expiry_date - today`. -/
def certificationSave (c : Certification) (today : Int) : Certification :=
  match c.expiry_date with
  | none => c
  | some exp =>
    let days := exp - today
    if c.status ∉ (["suspended", "revoked"] : List String) then
      if days < 0 then { c with status := "expired" }
      else if days ≤ 90 then { c with status := "expiring-soon" }
      else if c.status = "pending" then c
      else { c with status := "active" }
    else c

/-- A concrete certification row used to instantiate theorems. -/
def baseCertification : Certification :=
  { id := 1, client := 1, certificate_number := "CERT-0001", issue_date := 0,
    expiry_date := some 1000, status := "pending", scope := "QMS" }

/-- C7 counterexample. The status enumeration claimed by the spec
(`active`, `expiring`, `expired`, `suspended`, `revoked`) is wrong: the
model's `STATUS_CHOICES` also contains `pending` — the field default — and
spells the expiring status `expiring-soon`; a freshly saved certification
keeps status `pending`, which lies outside the claimed enumeration. -/
theorem certification_pending_outside_claimed_enum :
    "pending" ∈ certificationStatusChoices
    ∧ "pending" ∉ (["active", "expiring", "expired", "suspended", "revoked"] : List String)
    ∧ "expiring-soon" ∈ certificationStatusChoices
    ∧ "expiring-soon" ∉ (["active", "expiring", "expired", "suspended", "revoked"] : List String)
    ∧ (certificationSave baseCertification 0).status = "pending" := by
  decide

/-- C7 (amended). A certification's lifecycle status ranges over the six
enumerated strings `pending`, `active`, `expiring-soon`, `expired`,
`suspended`, `revoked`, and `save` keeps the status within this
enumeration. -/
theorem certification_status_stays_in_enum (c : Certification) (today : Int)
    (h : c.status ∈ certificationStatusChoices) :
    (certificationSave c today).status ∈ certificationStatusChoices := by
  unfold certificationSave
  cases hx : c.expiry_date with
  | none => exact h
  | some exp =>
    simp only
    split_ifs <;> simp [certificationStatusChoices] <;>
      simpa [certificationStatusChoices] using h

/-- Instantiation of `certification_status_stays_in_enum`. -/
theorem certification_status_stays_in_enum_witness :
    baseCertification.status ∈ certificationStatusChoices
    ∧ (certificationSave baseCertification 0).status ∈ certificationStatusChoices :=
  ⟨by decide, certification_status_stays_in_enum baseCertification 0 (by decide)⟩

/-- C8. With `expiry_date` set and a status that is neither `suspended`
nor `revoked`, `save` recomputes the status from the expiry date: `expired`
below today, `expiring-soon` within 0–90 days, the previous value for a
`pending` status, `active` otherwise; a `suspended` or `revoked`
certification is never changed by `save`. -/
theorem certification_save_recomputes_status (c : Certification) (today : Int) :
    (∀ exp : Int, c.expiry_date = some exp →
      c.status ≠ "suspended" → c.status ≠ "revoked" →
      (certificationSave c today).status =
        (if exp - today < 0 then "expired"
         else if exp - today ≤ 90 then "expiring-soon"
         else if c.status = "pending" then c.status
         else "active"))
    ∧ ((c.status = "suspended" ∨ c.status = "revoked") →
        certificationSave c today = c) := by
  constructor
  · intro exp hexp hs hr
    unfold certificationSave
    rw [hexp]
    simp only
    have hnotin : c.status ∉ (["suspended", "revoked"] : List String) := by
      simp [hs, hr]
    rw [if_pos hnotin]
    split_ifs <;> simp_all
  · intro hsr
    unfold certificationSave
    cases hx : c.expiry_date with
    | none => rfl
    | some exp =>
      simp only
      rw [if_neg]
      rcases hsr with h | h <;> simp [h]

/-- An `active` certification 50 days from its expiry date. -/
def activeCertification : Certification :=
  { baseCertification with status := "active", expiry_date := some 50 }

/-- Instantiation of `certification_save_recomputes_status`: an `active`
certification 50 days from expiry becomes `expiring-soon`. -/
theorem certification_save_recomputes_status_witness :
    (certificationSave activeCertification 0).status =
      (if (50 : Int) - 0 < 0 then "expired"
       else if (50 : Int) - 0 ≤ 90 then "expiring-soon"
       else if activeCertification.status = "pending" then activeCertification.status
       else "active") :=
  (certification_save_recomputes_status activeCertification 0).1
    50 rfl (by decide) (by decide)

/-! ## Contract numbering (`apps/business_development/serializers.py`) -/

/-- The columns of a `Contract` row that the numbering scheme reads;
`created_at` is an integer instant. -/
structure ContractRow where
  id : Nat
  contract_number : String
  created_at : Nat
deriving DecidableEq

/-- Embedding of `f"CON-{year}-{count:04d}"`. -/
def fmtContractNumber (year c : Nat) : String :=
  "CON-" ++ natStr year ++ "-" ++ padNum 4 c

/-- Embedding of `Contract.objects.filter(contract_number=s).exists()`. -/
def numberIsTaken (db : List ContractRow) (s : String) : Bool :=
  db.any (fun r => r.contract_number = s)

/-- The `while` retry loop of `ContractSerializer.create`, with explicit fuel.
`db.length + 1` fuel always suffices (`exists_free_candidate` below), so the
fuel-exhausted base case is unreachable. -/
def contractNumberLoop (db : List ContractRow) (year : Nat) : Nat → Nat → String
  | 0, count => fmtContractNumber year count
  | fuel + 1, count =>
    if numberIsTaken db (fmtContractNumber year count)
    then contractNumberLoop db year fuel (count + 1)
    else fmtContractNumber year count

/-- Embedding of `ContractSerializer.create` (serializers.py 216-232), numbering part:
`count` starts at one plus the number of contracts with
`created_at >= year_start`, and the candidate `CON-{year}-{count:04d}` is
retried with `count += 1` until it is not an existing `contract_number`. -/
def contractSerializerCreate (db : List ContractRow) (year yearStart : Nat) : String :=
  let count := (db.filter (fun r => yearStart ≤ r.created_at)).length + 1
  contractNumberLoop db year (db.length + 1) count

/-- Embedding of `ContractTemplateService._generate_contract_number`
(contract_template_service.py 211-225): the `CNT-` numbering path, a plain
count of same-year numbers with no retry loop. -/
def generateContractNumberCNT (db : List ContractRow) (year : Nat) : String :=
  let yearly := (db.filter
    (fun r => ("CNT-" ++ natStr year).isPrefixOf r.contract_number)).length + 1
  "CNT-" ++ natStr year ++ "-" ++ padNum 4 yearly

theorem fmtContractNumber_inj {year a b : Nat}
    (h : fmtContractNumber year a = fmtContractNumber year b) : a = b := by
  have hdata := congrArg String.data h
  simp only [fmtContractNumber, String.data_append, List.append_assoc] at hdata
  have h1 := List.append_cancel_left hdata
  have h2 := List.append_cancel_left h1
  have h3 := List.append_cancel_left h2
  have hstr : padNum 4 a = padNum 4 b := congrArg String.mk h3
  exact padNum_inj hstr

/-- Pigeonhole: among the `db.length + 1` candidate numbers
`fmt (count + 0), …, fmt (count + db.length)` — pairwise distinct by
`fmtContractNumber_inj` — at least one is not an existing contract number. -/
theorem exists_free_candidate (db : List ContractRow) (year count : Nat) :
    ∃ k, k ≤ db.length
      ∧ numberIsTaken db (fmtContractNumber year (count + k)) = false := by
  by_contra hcon
  push_neg at hcon
  have htaken : ∀ k : Fin (db.length + 1),
      ∃ r ∈ db, r.contract_number = fmtContractNumber year (count + k.val) := by
    intro k
    have hk := hcon k.val (Nat.lt_succ_iff.mp k.isLt)
    have hk' : numberIsTaken db (fmtContractNumber year (count + k.val)) = true := by
      cases hb : numberIsTaken db (fmtContractNumber year (count + k.val)) with
      | false => exact absurd hb hk
      | true => rfl
    rcases List.any_eq_true.mp hk' with ⟨r, hr, hpr⟩
    exact ⟨r, hr, by simpa using hpr⟩
  have hinj : Function.Injective
      (fun k : Fin (db.length + 1) => fmtContractNumber year (count + k.val)) := by
    intro i j hij
    have := fmtContractNumber_inj hij
    exact Fin.ext (by omega)
  have hsub : Finset.univ.image
        (fun k : Fin (db.length + 1) => fmtContractNumber year (count + k.val))
      ⊆ (db.map ContractRow.contract_number).toFinset := by
    intro s hs
    rcases Finset.mem_image.mp hs with ⟨k, _, rfl⟩
    rcases htaken k with ⟨r, hr, hpr⟩
    rw [List.mem_toFinset]
    exact hpr ▸ List.mem_map_of_mem ContractRow.contract_number hr
  have hcard1 : (Finset.univ.image
      (fun k : Fin (db.length + 1) => fmtContractNumber year (count + k.val))).card
      = db.length + 1 := by
    rw [Finset.card_image_of_injective _ hinj, Finset.card_univ, Fintype.card_fin]
  have hcard2 : (db.map ContractRow.contract_number).toFinset.card ≤ db.length := by
    calc (db.map ContractRow.contract_number).toFinset.card
        ≤ (db.map ContractRow.contract_number).length := List.toFinset_card_le _
      _ = db.length := List.length_map _ _
  have hle := Finset.card_le_card hsub
  omega

theorem contractNumberLoop_free (db : List ContractRow) (year : Nat) :
    ∀ fuel count,
      (∃ k, k < fuel ∧ numberIsTaken db (fmtContractNumber year (count + k)) = false) →
      numberIsTaken db (contractNumberLoop db year fuel count) = false
      ∧ ∃ c, count ≤ c ∧ contractNumberLoop db year fuel count = fmtContractNumber year c := by
  intro fuel
  induction fuel with
  | zero =>
    rintro count ⟨k, hk, -⟩
    omega
  | succ f ih =>
    rintro count ⟨k, hk, hfree⟩
    by_cases htaken : numberIsTaken db (fmtContractNumber year count) = true
    · rw [contractNumberLoop, if_pos htaken]
      have hk0 : k ≠ 0 := by
        intro h0
        rw [h0, Nat.add_zero] at hfree
        rw [hfree] at htaken
        exact Bool.false_ne_true htaken
      have hkf : k - 1 < f := by omega
      have hfree' : numberIsTaken db (fmtContractNumber year (count + 1 + (k - 1))) = false := by
        rw [show count + 1 + (k - 1) = count + k by omega]
        exact hfree
      rcases ih (count + 1) ⟨k - 1, hkf, hfree'⟩ with ⟨hres, c, hc, heq⟩
      exact ⟨hres, c, by omega, heq⟩
    · have hfalse : numberIsTaken db (fmtContractNumber year count) = false := by
        cases hb : numberIsTaken db (fmtContractNumber year count) with
        | false => rfl
        | true => exact absurd hb htaken
      rw [contractNumberLoop, if_neg htaken]
      exact ⟨hfalse, count, le_refl _, rfl⟩

/-- C6. `ContractSerializer.create` assigns a number
`CON-<year>-<count zero-padded to 4>` where `count` starts at the number of
this-year contracts plus one, and the retry loop guarantees the assigned
number differs from every `contract_number` existing at generation time;
when the initial candidate is free the count used is exactly the initial
count. -/
theorem contract_serializer_number_unique (db : List ContractRow) (year yearStart : Nat) :
    numberIsTaken db (contractSerializerCreate db year yearStart) = false
    ∧ (∀ r ∈ db, r.contract_number ≠ contractSerializerCreate db year yearStart)
    ∧ (∃ c, (db.filter (fun r => yearStart ≤ r.created_at)).length + 1 ≤ c
        ∧ contractSerializerCreate db year yearStart = fmtContractNumber year c)
    ∧ (numberIsTaken db (fmtContractNumber year
          ((db.filter (fun r => yearStart ≤ r.created_at)).length + 1)) = false →
        contractSerializerCreate db year yearStart =
          fmtContractNumber year
            ((db.filter (fun r => yearStart ≤ r.created_at)).length + 1)) := by
  have hunfold : contractSerializerCreate db year yearStart
      = contractNumberLoop db year (db.length + 1)
        ((db.filter (fun r => yearStart ≤ r.created_at)).length + 1) := rfl
  rcases exists_free_candidate db year
      ((db.filter (fun r => yearStart ≤ r.created_at)).length + 1) with ⟨k, hk, hfree⟩
  have hmain := contractNumberLoop_free db year (db.length + 1)
    ((db.filter (fun r => yearStart ≤ r.created_at)).length + 1)
    ⟨k, by omega, hfree⟩
  refine ⟨by rw [hunfold]; exact hmain.1, ?_, by rw [hunfold]; exact hmain.2, ?_⟩
  · intro r hr heq
    have hany : numberIsTaken db (contractSerializerCreate db year yearStart) = true :=
      List.any_eq_true.mpr ⟨r, hr, by simpa using heq⟩
    rw [hunfold, hmain.1] at hany
    exact Bool.false_ne_true hany
  · intro hfree0
    rw [hunfold]
    simp only [contractNumberLoop]
    rw [if_neg (by rw [hfree0]; exact Bool.false_ne_true)]

/-- Instantiation of `contract_serializer_number_unique` on a one-row table:
the initial candidate `CON-2025-0002` is free and is returned. -/
theorem contract_serializer_number_unique_witness :
    numberIsTaken [ContractRow.mk 1 "CON-2025-0001" 100]
        (fmtContractNumber 2025
          (([ContractRow.mk 1 "CON-2025-0001" 100].filter
              (fun r => 50 ≤ r.created_at)).length + 1)) = false
    ∧ contractSerializerCreate [ContractRow.mk 1 "CON-2025-0001" 100] 2025 50 =
        fmtContractNumber 2025
          (([ContractRow.mk 1 "CON-2025-0001" 100].filter
              (fun r => 50 ≤ r.created_at)).length + 1) :=
  ⟨by decide,
   (contract_serializer_number_unique [ContractRow.mk 1 "CON-2025-0001" 100] 2025 50).2.2.2
     (by decide)⟩

/-! ## Business-development entities (`apps/business_development/models.py`,
`apps/audits/models.py`) — the columns the pipeline signals read -/

structure Client where
  id : Nat
  name : String
deriving DecidableEq

structure Lead where
  id : Nat
  status : String
  company_name : String
  estimated_value : Option Int
  currency : String
  assigned_to : Option Nat
  created_at : Nat
  created_by : Option Nat
deriving DecidableEq

structure Opportunity where
  id : Nat
  client : Option Client
  lead : Option Nat
  description : String
  estimated_value : Int
  currency : String
  status : String
  expected_close_date : Nat
  owner : Option Nat
  created_at : Nat
  created_by : Option Nat
deriving DecidableEq

structure Contract where
  id : Nat
  opportunity : Option Nat
  status : String
  client_organization : String
  contract_value : Int
  currency : String
  agreement_date : Option Nat
  start_date : Option Nat
  created_at : Nat
  created_by : Option Nat
deriving DecidableEq

structure Audit where
  id : Nat
  pipeline : Option Nat
  status : String
  audit_type : String
  planned_start_date : Option Nat
  planned_end_date : Option Nat
  lead_auditor : Option Nat
deriving DecidableEq

/-- A `PipelineMilestone` row (the columns the signal helpers set). -/
structure Milestone where
  pipeline : Nat
  milestone_type : String
  title : String
  description : String
  due_date : Option Nat
  is_critical : Bool
  assigned_to : Option Nat
deriving DecidableEq

/-- The database state the pipeline signals read and write. -/
structure World where
  pipelines : List Pipeline
  transitions : List StageTransition
  milestones : List Milestone
  nextPk : Nat
deriving DecidableEq

/-- Persist an updated row in place of the row with the same pk. -/
def replaceById (ps : List Pipeline) (p : Pipeline) : List Pipeline :=
  ps.map (fun q => if q.id = p.id then p else q)

/-- A fresh `JobPipeline` row with the model's field defaults. -/
def newPipeline (pk : Nat) : Pipeline :=
  { id := pk, number := none, pipeline_id := "", client_name := "",
    service_description := "", estimated_value := none, currency := "USD",
    current_stage := .LEAD, status := "ACTIVE", lead := none,
    opportunity := none, contract := none, lead_created_date := none,
    opportunity_created_date := none, contract_signed_date := none,
    audit_scheduled_date := none, audit_completed_date := none,
    certificate_issued_date := none, owner := none, created_by := none }

/-- Embedding of `JobPipeline.objects.filter(lead=...).first()` guarded by `if instance.lead`. -/
def findByLead (ps : List Pipeline) : Option Nat → Option Pipeline
  | some lid => ps.find? (fun p => p.lead = some lid)
  | none => none

/-- Embedding of `JobPipeline.objects.filter(opportunity=...).first()` guarded on the FK. -/
def findByOpportunity (ps : List Pipeline) : Option Nat → Option Pipeline
  | some oid => ps.find? (fun p => p.opportunity = some oid)
  | none => none

/-- Dereference `instance.pipeline` (an FK) in the stored table. -/
def findByPk (ps : List Pipeline) : Option Nat → Option Pipeline
  | some pid => ps.find? (fun p => p.id = pid)
  | none => none

/-- Embedding of `create_lead_milestones` (signals.py 148-164). -/
def leadMilestone (p : Pipeline) (l : Lead) (now : Nat) : Milestone :=
  { pipeline := p.id, milestone_type := "PROPOSAL_DUE", title := "Send Proposal",
    description := "Prepare and send proposal to " ++ l.company_name,
    due_date := some (now + 7), is_critical := true, assigned_to := none }

/-- Embedding of `create_opportunity_milestones` (signals.py 167-183). -/
def opportunityMilestone (p : Pipeline) (o : Opportunity) : Milestone :=
  { pipeline := p.id, milestone_type := "CONTRACT_SIGNATURE",
    title := "Contract Signature",
    description := "Get contract signed by " ++
      (match o.client with | some c => c.name | none => "client"),
    due_date := some o.expected_close_date, is_critical := true, assigned_to := none }

/-- Embedding of `create_contract_milestones` (signals.py 186-202). -/
def contractMilestone (p : Pipeline) (c : Contract) (now : Nat) : Milestone :=
  { pipeline := p.id, milestone_type := "AUDIT_SCHEDULED",
    title := "Schedule Initial Audit",
    description := "Schedule initial certification audit for " ++ c.client_organization,
    due_date := some (match c.start_date with | some d => d + 30 | none => now + 30),
    is_critical := true, assigned_to := none }

/-- Embedding of `create_audit_milestones` (signals.py 205-244). -/
def auditMilestones (p : Pipeline) (a : Audit) : List Milestone :=
  (match a.planned_start_date with
   | some d =>
     [{ pipeline := p.id, milestone_type := "AUDIT_START", title := "Audit Start",
        description := "Begin " ++ a.audit_type ++ " audit", due_date := some d,
        is_critical := true, assigned_to := a.lead_auditor }]
   | none => []) ++
  (match a.planned_end_date with
   | some d =>
     [{ pipeline := p.id, milestone_type := "AUDIT_COMPLETION",
        title := "Audit Completion",
        description := "Complete " ++ a.audit_type ++ " audit", due_date := some d,
        is_critical := true, assigned_to := a.lead_auditor },
      { pipeline := p.id, milestone_type := "CERTIFICATE_ISSUE",
        title := "Certificate Issue",
        description := "Issue certification after audit completion",
        due_date := some (d + 14), is_critical := true,
        assigned_to := a.lead_auditor }]
   | none => [])

/-! ## The four `post_save` handlers (`apps/job_pipeline/signals.py`) -/

/-- The `JobPipeline.objects.create(...)` record of `create_pipeline_from_lead`. -/
def leadPipelineRecord (pk : Nat) (l : Lead) : Pipeline :=
  { newPipeline pk with
      client_name := l.company_name,
      service_description := "Lead for " ++ l.company_name,
      estimated_value := l.estimated_value,
      currency := l.currency,
      current_stage := .LEAD,
      lead := some l.id,
      owner := l.assigned_to,
      lead_created_date := some l.created_at,
      created_by := l.created_by }

/-- Embedding of `create_pipeline_from_lead` (signals.py 9-28). -/
def createPipelineFromLead (w : World) (l : Lead) (created : Bool) (now : Nat) : World :=
  if created = true ∧ (l.status = "QUALIFIED" ∨ l.status = "PROPOSAL_SENT") then
    if w.pipelines.any (fun p => p.lead = some l.id) then w
    else
      let p := pipelineSave w.pipelines (leadPipelineRecord w.nextPk l)
      { w with pipelines := w.pipelines ++ [p],
               nextPk := w.nextPk + 1,
               milestones := w.milestones ++ [leadMilestone p l now] }
  else w

/-- The field updates `update_pipeline_from_opportunity` applies to an
existing pipeline found through the opportunity's lead. -/
def oppUpdateRecord (p : Pipeline) (o : Opportunity) : Pipeline :=
  { p with
      opportunity := some o.id,
      current_stage := .OPPORTUNITY,
      opportunity_created_date := some o.created_at,
      client_name := (match o.client with | some c => c.name | none => p.client_name),
      estimated_value := some o.estimated_value,
      currency := o.currency,
      owner := o.owner }

/-- The `JobPipeline.objects.create(...)` record of
`update_pipeline_from_opportunity`. -/
def oppPipelineRecord (pk : Nat) (o : Opportunity) : Pipeline :=
  { newPipeline pk with
      client_name := (match o.client with | some c => c.name | none => "Unknown Client"),
      service_description := o.description,
      estimated_value := some o.estimated_value,
      currency := o.currency,
      current_stage := .OPPORTUNITY,
      opportunity := some o.id,
      owner := o.owner,
      opportunity_created_date := some o.created_at,
      created_by := o.created_by }

/-- Embedding of `update_pipeline_from_opportunity` (signals.py 31-77). -/
def updatePipelineFromOpportunity (w : World) (o : Opportunity) (created : Bool)
    (_now : Nat) : World :=
  if created = true then
    match findByLead w.pipelines o.lead with
    | some p =>
      let p2 := pipelineSave w.pipelines (oppUpdateRecord p o)
      { w with pipelines := replaceById w.pipelines p2,
               milestones := w.milestones ++ [opportunityMilestone p2 o] }
    | none =>
      let p := pipelineSave w.pipelines (oppPipelineRecord w.nextPk o)
      { w with pipelines := w.pipelines ++ [p],
               nextPk := w.nextPk + 1,
               milestones := w.milestones ++ [opportunityMilestone p o] }
  else
    match findByOpportunity w.pipelines (some o.id) with
    | some p =>
      if o.status = "CLOSED_WON" ∧ p.current_stage = .OPPORTUNITY then
        let p2 := pipelineSave w.pipelines { p with current_stage := .CONTRACT }
        { w with pipelines := replaceById w.pipelines p2 }
      else if o.status = "CLOSED_LOST" then
        let p2 := pipelineSave w.pipelines { p with status := "CANCELLED" }
        { w with pipelines := replaceById w.pipelines p2 }
      else w
    | none => w

/-- The field updates `update_pipeline_from_contract` applies to an existing
pipeline found through the contract's opportunity. -/
def contractUpdateRecord (p : Pipeline) (c : Contract) (now : Nat) : Pipeline :=
  { p with
      contract := some c.id,
      current_stage := .CONTRACT,
      contract_signed_date := some (c.agreement_date.getD now),
      client_name := c.client_organization,
      estimated_value := some c.contract_value,
      currency := c.currency }

/-- The `JobPipeline.objects.create(...)` record of
`update_pipeline_from_contract`. -/
def contractPipelineRecord (pk : Nat) (c : Contract) (now : Nat) : Pipeline :=
  { newPipeline pk with
      client_name := c.client_organization,
      service_description := "Contract services for " ++ c.client_organization,
      estimated_value := some c.contract_value,
      currency := c.currency,
      current_stage := .CONTRACT,
      contract := some c.id,
      contract_signed_date := some (c.agreement_date.getD now),
      created_by := c.created_by }

/-- Embedding of `update_pipeline_from_contract` (signals.py 80-119); the not-created
branch only contains `pass`. -/
def updatePipelineFromContract (w : World) (c : Contract) (created : Bool)
    (now : Nat) : World :=
  if created = true then
    match findByOpportunity w.pipelines c.opportunity with
    | some p =>
      let p2 := pipelineSave w.pipelines (contractUpdateRecord p c now)
      { w with pipelines := replaceById w.pipelines p2,
               milestones := w.milestones ++ [contractMilestone p2 c now] }
    | none =>
      let p := pipelineSave w.pipelines (contractPipelineRecord w.nextPk c now)
      { w with pipelines := w.pipelines ++ [p],
               nextPk := w.nextPk + 1,
               milestones := w.milestones ++ [contractMilestone p c now] }
  else w

/-- Embedding of `update_pipeline_from_audit` (signals.py 122-145). -/
def updatePipelineFromAudit (w : World) (a : Audit) (created : Bool)
    (now : Nat) : World :=
  if created = true then
    match findByPk w.pipelines a.pipeline with
    | some p =>
      if p.current_stage = .CONTRACT then
        let p2 := pipelineSave w.pipelines
          { p with current_stage := .AUDIT_SCHEDULED, audit_scheduled_date := some now }
        { w with pipelines := replaceById w.pipelines p2,
                 milestones := w.milestones ++ auditMilestones p2 a }
      else w
    | none => w
  else
    match findByPk w.pipelines a.pipeline with
    | some p =>
      if a.status = "IN_PROGRESS" ∧ p.current_stage = .AUDIT_SCHEDULED then
        let p2 := pipelineSave w.pipelines { p with current_stage := .AUDIT_IN_PROGRESS }
        { w with pipelines := replaceById w.pipelines p2 }
      else if a.status = "COMPLETED" ∧ p.current_stage = .AUDIT_IN_PROGRESS then
        let p1 : Pipeline :=
          { p with current_stage := .AUDIT_COMPLETED, audit_completed_date := some now }
        let p2 := pipelineSave w.pipelines p1
        { w with pipelines := replaceById w.pipelines p2 }
      else w
    | none => w

/-! ## `JobPipeline.update_from_related_object` (models.py 201-236) -/

inductive RelatedObject
  | fromLead (l : Lead)
  | fromOpportunity (o : Opportunity)
  | fromContract (c : Contract)
  | fromAudit (a : Audit)
deriving DecidableEq

/-- Embedding of `update_from_related_object`: field sync plus conditional calls to
`advance_stage`; a `ValueError` raised by `advance_stage` propagates
(modelled as `none`). -/
def updateFromRelatedObject (db : List Pipeline) (p : Pipeline)
    (ts : List StageTransition) (obj : RelatedObject) (user : Option Nat)
    (now : Nat) : Option (Pipeline × List StageTransition) :=
  match obj with
  | .fromLead l =>
    let p1 := { p with lead := some l.id }
    let p2 :=
      if p1.current_stage = .LEAD then
        { p1 with client_name := l.company_name,
                  estimated_value := l.estimated_value, currency := l.currency }
      else p1
    some (pipelineSave db p2, ts)
  | .fromOpportunity o =>
    let p1 := { p with opportunity := some o.id }
    let step :=
      if o.status = "CLOSED_WON"
          ∧ (p1.current_stage = .LEAD ∨ p1.current_stage = .OPPORTUNITY) then
        match advanceStage db p1
            (if p1.current_stage = .LEAD then .OPPORTUNITY else .CONTRACT) user now with
        | some (p', t) => some (p', ts ++ [t])
        | none => none
      else some (p1, ts)
    match step with
    | none => none
    | some (p2, ts2) =>
      let p3 := { p2 with
        client_name := (match o.client with | some c => c.name | none => p2.client_name),
        estimated_value := some o.estimated_value,
        currency := o.currency }
      some (pipelineSave db p3, ts2)
  | .fromContract c =>
    let p1 := { p with contract := some c.id }
    let step :=
      if c.status = "ACTIVE" ∧ (p1.current_stage = .LEAD
          ∨ p1.current_stage = .OPPORTUNITY ∨ p1.current_stage = .CONTRACT) then
        match advanceStage db p1 .CONTRACT user now with
        | some (p', t) => some (p', ts ++ [t])
        | none => none
      else some (p1, ts)
    match step with
    | none => none
    | some (p2, ts2) =>
      let p3 := { p2 with
        client_name := c.client_organization,
        estimated_value := some c.contract_value,
        currency := c.currency }
      some (pipelineSave db p3, ts2)
  | .fromAudit a =>
    let step :=
      if a.status = "PLANNED" ∧ p.current_stage = .CONTRACT then
        match advanceStage db p .AUDIT_SCHEDULED user now with
        | some (p', t) => some (p', ts ++ [t])
        | none => none
      else if a.status = "IN_PROGRESS" ∧ p.current_stage = .AUDIT_SCHEDULED then
        match advanceStage db p .AUDIT_IN_PROGRESS user now with
        | some (p', t) => some (p', ts ++ [t])
        | none => none
      else if a.status = "COMPLETED" ∧ p.current_stage = .AUDIT_IN_PROGRESS then
        match advanceStage db p .AUDIT_COMPLETED user now with
        | some (p', t) => some (p', ts ++ [t])
        | none => none
      else some (p, ts)
    match step with
    | none => none
    | some (p2, ts2) => some (pipelineSave db p2, ts2)

theorem findByLead_mem {ps : List Pipeline} {ol : Option Nat} {p : Pipeline}
    (h : findByLead ps ol = some p) : p ∈ ps := by
  cases ol with
  | none => cases h
  | some lid => exact List.mem_of_find?_eq_some h

theorem findByOpportunity_mem {ps : List Pipeline} {ool : Option Nat} {p : Pipeline}
    (h : findByOpportunity ps ool = some p) : p ∈ ps := by
  cases ool with
  | none => cases h
  | some oid => exact List.mem_of_find?_eq_some h

theorem findByPk_mem {ps : List Pipeline} {opk : Option Nat} {p : Pipeline}
    (h : findByPk ps opk = some p) : p ∈ ps := by
  cases opk with
  | none => cases h
  | some pid => exact List.mem_of_find?_eq_some h

theorem replaceById_map_id (ps : List Pipeline) (p : Pipeline) :
    (replaceById ps p).map Pipeline.id = ps.map Pipeline.id := by
  unfold replaceById
  rw [List.map_map]
  apply List.map_congr_left
  intro q hq
  by_cases h : q.id = p.id
  · simp [h]
  · simp [h]

theorem mem_replaceById {ps : List Pipeline} {q p : Pipeline} (hq : q ∈ ps)
    (hid : q.id = p.id) : p ∈ replaceById ps p := by
  have hmem := List.mem_map_of_mem (fun r => if r.id = p.id then p else r) hq
  simp only [hid, if_true, eq_self_iff_true] at hmem
  unfold replaceById
  exact hmem

/-- An empty database state. -/
def emptyWorld : World :=
  { pipelines := [], transitions := [], milestones := [], nextPk := 1 }

/-- A lead saved with the default status `NEW`. -/
def newLead : Lead :=
  { id := 3, status := "NEW", company_name := "Foo Ltd", estimated_value := none,
    currency := "KES", assigned_to := none, created_at := 11, created_by := none }

/-- C4 counterexample. Saving (creating) a Lead with the default status
`NEW` triggers `create_pipeline_from_lead`, but the handler's guard
(`status in ['QUALIFIED', 'PROPOSAL_SENT']`) fails: afterwards no
`JobPipeline` row exists for the lead at all, contrary to the claim that
every Lead save leaves a pipeline row reflecting the saved object. -/
theorem lead_save_creates_no_pipeline :
    newLead.status = "NEW"
    ∧ (createPipelineFromLead emptyWorld newLead true 11).pipelines = [] := by
  decide

/-- C4 (amended). The handlers maintain the pipeline projection only under
their guard conditions. Positive guarantees: a newly created Lead with
status `QUALIFIED` or `PROPOSAL_SENT` gets a pipeline row linked to it, and
every newly created Opportunity or Contract gets a pipeline row linked to it
(updating the existing related pipeline when one is found, otherwise
creating one). Negative guarantees: a non-created lead save, or a created
lead outside those two statuses, leaves the database unchanged; a
non-created contract save leaves it unchanged; non-created opportunity
saves and all audit saves never create or delete a pipeline row — the list
of pipeline primary keys is unchanged, only existing rows are modified. -/
theorem signal_handlers_guarantee_projection :
    (∀ (w : World) (l : Lead) (now : Nat),
      (l.status = "QUALIFIED" ∨ l.status = "PROPOSAL_SENT") →
      ∃ p ∈ (createPipelineFromLead w l true now).pipelines, p.lead = some l.id)
    ∧ (∀ (w : World) (o : Opportunity) (now : Nat),
      ∃ p ∈ (updatePipelineFromOpportunity w o true now).pipelines,
        p.opportunity = some o.id)
    ∧ (∀ (w : World) (c : Contract) (now : Nat),
      ∃ p ∈ (updatePipelineFromContract w c true now).pipelines,
        p.contract = some c.id)
    ∧ (∀ (w : World) (l : Lead) (b : Bool) (now : Nat),
      (b = false ∨ (l.status ≠ "QUALIFIED" ∧ l.status ≠ "PROPOSAL_SENT")) →
      createPipelineFromLead w l b now = w)
    ∧ (∀ (w : World) (o : Opportunity) (now : Nat),
      ((updatePipelineFromOpportunity w o false now).pipelines.map Pipeline.id)
        = w.pipelines.map Pipeline.id)
    ∧ (∀ (w : World) (c : Contract) (now : Nat),
      updatePipelineFromContract w c false now = w)
    ∧ (∀ (w : World) (a : Audit) (b : Bool) (now : Nat),
      ((updatePipelineFromAudit w a b now).pipelines.map Pipeline.id)
        = w.pipelines.map Pipeline.id) := by
  refine ⟨?_, ?_, ?_, ?_, ?_, ?_, ?_⟩
  · intro w l now h
    unfold createPipelineFromLead
    rw [if_pos ⟨rfl, h⟩]
    by_cases hany : w.pipelines.any (fun p => p.lead = some l.id) = true
    · rw [if_pos hany]
      rcases List.any_eq_true.mp hany with ⟨p, hp, hpl⟩
      exact ⟨p, hp, of_decide_eq_true hpl⟩
    · rw [if_neg hany]
      exact ⟨pipelineSave w.pipelines (leadPipelineRecord w.nextPk l), by simp, rfl⟩
  · intro w o now
    unfold updatePipelineFromOpportunity
    rw [if_pos rfl]
    cases hf : findByLead w.pipelines o.lead with
    | some p =>
      exact ⟨pipelineSave w.pipelines (oppUpdateRecord p o),
        mem_replaceById (findByLead_mem hf) rfl, rfl⟩
    | none =>
      exact ⟨pipelineSave w.pipelines (oppPipelineRecord w.nextPk o), by simp, rfl⟩
  · intro w c now
    unfold updatePipelineFromContract
    rw [if_pos rfl]
    cases hf : findByOpportunity w.pipelines c.opportunity with
    | some p =>
      exact ⟨pipelineSave w.pipelines (contractUpdateRecord p c now),
        mem_replaceById (findByOpportunity_mem hf) rfl, rfl⟩
    | none =>
      exact ⟨pipelineSave w.pipelines (contractPipelineRecord w.nextPk c now), by simp, rfl⟩
  · intro w l b now h
    have hnot : ¬(b = true ∧ (l.status = "QUALIFIED" ∨ l.status = "PROPOSAL_SENT")) := by
      rintro ⟨hbt, hsor⟩
      rcases h with hb | ⟨h1, h2⟩
      · rw [hb] at hbt
        exact Bool.false_ne_true hbt
      · rcases hsor with hq | hp
        · exact h1 hq
        · exact h2 hp
    unfold createPipelineFromLead
    rw [if_neg hnot]
  · intro w o now
    unfold updatePipelineFromOpportunity
    rw [if_neg (by simp)]
    cases hf : findByOpportunity w.pipelines (some o.id) with
    | some p =>
      dsimp only
      split_ifs with h1 h2
      · exact replaceById_map_id w.pipelines _
      · exact replaceById_map_id w.pipelines _
      · rfl
    | none => rfl
  · intro w c now
    unfold updatePipelineFromContract
    rw [if_neg (by simp)]
  · intro w a b now
    unfold updatePipelineFromAudit
    cases b with
    | true =>
      rw [if_pos rfl]
      cases hf : findByPk w.pipelines a.pipeline with
      | some p =>
        dsimp only
        split_ifs with h1
        · exact replaceById_map_id w.pipelines _
        · rfl
      | none => rfl
    | false =>
      rw [if_neg (by simp)]
      cases hf : findByPk w.pipelines a.pipeline with
      | some p =>
        dsimp only
        split_ifs with h1 h2
        · exact replaceById_map_id w.pipelines _
        · exact replaceById_map_id w.pipelines _
        · rfl
      | none => rfl

/-- A qualified lead. -/
def qualifiedLead : Lead := { newLead with id := 4, status := "QUALIFIED" }

/-- Instantiation of `signal_handlers_guarantee_projection`: creating a
qualified lead in an empty database yields a pipeline for it, while a lead
created with status `NEW` leaves the database unchanged. -/
theorem signal_handlers_guarantee_projection_witness :
    qualifiedLead.status = "QUALIFIED"
    ∧ (∃ p ∈ (createPipelineFromLead emptyWorld qualifiedLead true 11).pipelines,
        p.lead = some qualifiedLead.id)
    ∧ createPipelineFromLead emptyWorld newLead true 11 = emptyWorld :=
  ⟨rfl,
   signal_handlers_guarantee_projection.1 emptyWorld qualifiedLead 11 (Or.inl rfl),
   signal_handlers_guarantee_projection.2.2.2.1 emptyWorld newLead true 11
     (Or.inr ⟨by decide, by decide⟩)⟩

/-! ## Refinement of the stage machine by the two update paths (C5) -/

theorem advanceStage_some {db : List Pipeline} {p : Pipeline} {s : Stage}
    {u : Option Nat} {now : Nat} {p' : Pipeline} {t : StageTransition}
    (h : advanceStage db p s u now = some (p', t)) :
    s ∈ validProgressions p.current_stage ∧ p'.current_stage = s ∧ p'.id = p.id
    ∧ t = { pipeline := p.id, from_stage := p.current_stage, to_stage := s,
            transitioned_by := u, transitioned_at := now } := by
  unfold advanceStage at h
  by_cases hmem : s ∈ validProgressions p.current_stage
  · rw [if_pos hmem] at h
    split_ifs at h <;>
      (obtain ⟨hA, hB⟩ := Prod.ext_iff.mp (Option.some.inj h)
       subst hA
       subst hB
       exact ⟨hmem, rfl, rfl, rfl⟩)
  · rw [if_neg hmem] at h
    cases h

theorem lead_handler_preserves_transitions (w : World) (l : Lead) (b : Bool) (now : Nat) :
    (createPipelineFromLead w l b now).transitions = w.transitions := by
  unfold createPipelineFromLead
  split_ifs <;> rfl

theorem opp_handler_preserves_transitions (w : World) (o : Opportunity) (b : Bool)
    (now : Nat) : (updatePipelineFromOpportunity w o b now).transitions = w.transitions := by
  unfold updatePipelineFromOpportunity
  split
  · split <;> rfl
  · split
    · split_ifs <;> rfl
    · rfl

theorem contract_handler_preserves_transitions (w : World) (c : Contract) (b : Bool)
    (now : Nat) : (updatePipelineFromContract w c b now).transitions = w.transitions := by
  unfold updatePipelineFromContract
  split
  · split <;> rfl
  · rfl

theorem audit_handler_preserves_transitions (w : World) (a : Audit) (b : Bool)
    (now : Nat) : (updatePipelineFromAudit w a b now).transitions = w.transitions := by
  unfold updatePipelineFromAudit
  split
  · split
    · split_ifs <;> rfl
    · rfl
  · split
    · split_ifs <;> rfl
    · rfl

/-- Every stage change made by `update_from_related_object` goes through
`advance_stage`: it follows a `valid_progressions` edge and appends exactly
one matching transition row; when the stage is unchanged no row is added. -/
theorem updateFromRelatedObject_stage_changes (db : List Pipeline) (p : Pipeline)
    (ts : List StageTransition) (obj : RelatedObject) (user : Option Nat) (now : Nat)
    (p' : Pipeline) (ts' : List StageTransition)
    (h : updateFromRelatedObject db p ts obj user now = some (p', ts')) :
    (p'.current_stage = p.current_stage ∧ ts' = ts)
    ∨ (stageStep p.current_stage p'.current_stage
       ∧ ts' = ts ++ [{ pipeline := p.id, from_stage := p.current_stage,
                        to_stage := p'.current_stage, transitioned_by := user,
                        transitioned_at := now }]) := by
  cases obj with
  | fromLead l =>
    simp only [updateFromRelatedObject] at h
    obtain ⟨hA, hB⟩ := Prod.ext_iff.mp (Option.some.inj h)
    subst hA
    subst hB
    left
    refine ⟨?_, rfl⟩
    split <;> rfl
  | fromOpportunity o =>
    simp only [updateFromRelatedObject] at h
    by_cases hcond : o.status = "CLOSED_WON"
        ∧ (p.current_stage = Stage.LEAD ∨ p.current_stage = Stage.OPPORTUNITY)
    · rw [if_pos hcond] at h
      cases hadv : advanceStage db { p with opportunity := some o.id }
          (if p.current_stage = Stage.LEAD then Stage.OPPORTUNITY else Stage.CONTRACT)
          user now with
      | none => rw [hadv] at h; cases h
      | some pt =>
        obtain ⟨pa, t⟩ := pt
        rw [hadv] at h
        obtain ⟨hA, hB⟩ := Prod.ext_iff.mp (Option.some.inj h)
        subst hA
        subst hB
        obtain ⟨hmem, hstage, hid, ht⟩ := advanceStage_some hadv
        right
        constructor
        · show stageStep p.current_stage (pipelineSave db _).current_stage
          have : (pipelineSave db { pa with
              client_name := (match o.client with | some c => c.name | none => pa.client_name),
              estimated_value := some o.estimated_value,
              currency := o.currency }).current_stage = pa.current_stage := rfl
          rw [this, hstage]
          exact hmem
        · rw [ht]
          have hstage' : (pipelineSave db { pa with
              client_name := (match o.client with | some c => c.name | none => pa.client_name),
              estimated_value := some o.estimated_value,
              currency := o.currency }).current_stage = pa.current_stage := rfl
          rw [hstage', hstage]
    · rw [if_neg hcond] at h
      obtain ⟨hA, hB⟩ := Prod.ext_iff.mp (Option.some.inj h)
      subst hA
      subst hB
      left
      exact ⟨rfl, rfl⟩
  | fromContract c =>
    simp only [updateFromRelatedObject] at h
    by_cases hcond : c.status = "ACTIVE"
        ∧ (p.current_stage = Stage.LEAD ∨ p.current_stage = Stage.OPPORTUNITY
           ∨ p.current_stage = Stage.CONTRACT)
    · rw [if_pos hcond] at h
      cases hadv : advanceStage db { p with contract := some c.id }
          Stage.CONTRACT user now with
      | none => rw [hadv] at h; cases h
      | some pt =>
        obtain ⟨pa, t⟩ := pt
        rw [hadv] at h
        obtain ⟨hA, hB⟩ := Prod.ext_iff.mp (Option.some.inj h)
        subst hA
        subst hB
        obtain ⟨hmem, hstage, hid, ht⟩ := advanceStage_some hadv
        right
        constructor
        · show stageStep p.current_stage (pipelineSave db _).current_stage
          have hs : (pipelineSave db { pa with
              client_name := c.client_organization,
              estimated_value := some c.contract_value,
              currency := c.currency }).current_stage = pa.current_stage := rfl
          rw [hs, hstage]
          exact hmem
        · rw [ht]
          have hs : (pipelineSave db { pa with
              client_name := c.client_organization,
              estimated_value := some c.contract_value,
              currency := c.currency }).current_stage = pa.current_stage := rfl
          rw [hs, hstage]
    · rw [if_neg hcond] at h
      obtain ⟨hA, hB⟩ := Prod.ext_iff.mp (Option.some.inj h)
      subst hA
      subst hB
      left
      exact ⟨rfl, rfl⟩
  | fromAudit a =>
    simp only [updateFromRelatedObject] at h
    by_cases h1 : a.status = "PLANNED" ∧ p.current_stage = Stage.CONTRACT
    · rw [if_pos h1] at h
      cases hadv : advanceStage db p Stage.AUDIT_SCHEDULED user now with
      | none => rw [hadv] at h; cases h
      | some pt =>
        obtain ⟨pa, t⟩ := pt
        rw [hadv] at h
        obtain ⟨hA, hB⟩ := Prod.ext_iff.mp (Option.some.inj h)
        subst hA
        subst hB
        obtain ⟨hmem, hstage, hid, ht⟩ := advanceStage_some hadv
        right
        have hs : (pipelineSave db pa).current_stage = pa.current_stage := rfl
        rw [ht, hs, hstage]
        exact ⟨hmem, rfl⟩
    · rw [if_neg h1] at h
      by_cases h2 : a.status = "IN_PROGRESS" ∧ p.current_stage = Stage.AUDIT_SCHEDULED
      · rw [if_pos h2] at h
        cases hadv : advanceStage db p Stage.AUDIT_IN_PROGRESS user now with
        | none => rw [hadv] at h; cases h
        | some pt =>
          obtain ⟨pa, t⟩ := pt
          rw [hadv] at h
          obtain ⟨hA, hB⟩ := Prod.ext_iff.mp (Option.some.inj h)
          subst hA
          subst hB
          obtain ⟨hmem, hstage, hid, ht⟩ := advanceStage_some hadv
          right
          have hs : (pipelineSave db pa).current_stage = pa.current_stage := rfl
          rw [ht, hs, hstage]
          exact ⟨hmem, rfl⟩
      · rw [if_neg h2] at h
        by_cases h3 : a.status = "COMPLETED" ∧ p.current_stage = Stage.AUDIT_IN_PROGRESS
        · rw [if_pos h3] at h
          cases hadv : advanceStage db p Stage.AUDIT_COMPLETED user now with
          | none => rw [hadv] at h; cases h
          | some pt =>
            obtain ⟨pa, t⟩ := pt
            rw [hadv] at h
            obtain ⟨hA, hB⟩ := Prod.ext_iff.mp (Option.some.inj h)
            subst hA
            subst hB
            obtain ⟨hmem, hstage, hid, ht⟩ := advanceStage_some hadv
            right
            have hs : (pipelineSave db pa).current_stage = pa.current_stage := rfl
            rw [ht, hs, hstage]
            exact ⟨hmem, rfl⟩
        · rw [if_neg h3] at h
          obtain ⟨hA, hB⟩ := Prod.ext_iff.mp (Option.some.inj h)
          subst hA
          subst hB
          left
          exact ⟨rfl, rfl⟩

/-- A pipeline that has already advanced to the `CONTRACT` stage, linked to
lead 1. -/
def contractStagePipeline : Pipeline :=
  { basePipeline with current_stage := .CONTRACT, lead := some 1 }

/-- A database holding only `contractStagePipeline`, with no transition rows. -/
def cxWorld : World :=
  { pipelines := [contractStagePipeline], transitions := [], milestones := [],
    nextPk := 2 }

/-- An opportunity created against lead 1. -/
def cxOpportunity : Opportunity :=
  { id := 5, client := none, lead := some 1, description := "Certification",
    estimated_value := 100, currency := "USD", status := "PROSPECTING",
    expected_close_date := 30, owner := none, created_at := 12, created_by := none }

/-- C5 counterexample. The opportunity `post_save` handler sets
`current_stage` directly: creating an opportunity for lead 1 moves the lead's
pipeline from `CONTRACT` back to `OPPORTUNITY` — an edge the
`valid_progressions` dict does not permit — and writes no
`PipelineStageTransition` row, so the signal path neither respects the
`advance_stage` state machine nor logs its stage changes. -/
theorem signal_handler_unlogged_stage_change :
    ((updatePipelineFromOpportunity cxWorld cxOpportunity true 12).pipelines.map
        (fun p => p.current_stage)) = [Stage.OPPORTUNITY]
    ∧ cxWorld.pipelines.map (fun p => p.current_stage) = [Stage.CONTRACT]
    ∧ (updatePipelineFromOpportunity cxWorld cxOpportunity true 12).transitions = []
    ∧ ¬ stageStep Stage.CONTRACT Stage.OPPORTUNITY := by
  refine ⟨by decide, by decide, by decide, ?_⟩
  intro hstep
  simp [stageStep, validProgressions] at hstep

/-- C5 (amended). The two update paths do not make the same transitions.
`update_from_related_object` changes `current_stage` only through
`advance_stage`: every stage change it performs follows a
`valid_progressions` edge and is recorded as exactly one
`PipelineStageTransition` row. The four `post_save` signal handlers, by
contrast, write `current_stage` directly and never create a
`PipelineStageTransition` row (and, per the counterexample, may set the
stage along a non-edge). -/
theorem pipeline_update_paths :
    (∀ (w : World) (l : Lead) (b : Bool) (now : Nat),
        (createPipelineFromLead w l b now).transitions = w.transitions)
    ∧ (∀ (w : World) (o : Opportunity) (b : Bool) (now : Nat),
        (updatePipelineFromOpportunity w o b now).transitions = w.transitions)
    ∧ (∀ (w : World) (c : Contract) (b : Bool) (now : Nat),
        (updatePipelineFromContract w c b now).transitions = w.transitions)
    ∧ (∀ (w : World) (a : Audit) (b : Bool) (now : Nat),
        (updatePipelineFromAudit w a b now).transitions = w.transitions)
    ∧ (∀ (db : List Pipeline) (p : Pipeline) (ts : List StageTransition)
          (obj : RelatedObject) (user : Option Nat) (now : Nat)
          (p' : Pipeline) (ts' : List StageTransition),
        updateFromRelatedObject db p ts obj user now = some (p', ts') →
        (p'.current_stage = p.current_stage ∧ ts' = ts)
        ∨ (stageStep p.current_stage p'.current_stage
           ∧ ts' = ts ++ [{ pipeline := p.id, from_stage := p.current_stage,
                            to_stage := p'.current_stage, transitioned_by := user,
                            transitioned_at := now }])) :=
  ⟨lead_handler_preserves_transitions, opp_handler_preserves_transitions,
   contract_handler_preserves_transitions, audit_handler_preserves_transitions,
   updateFromRelatedObject_stage_changes⟩

/-- The pipeline produced by `update_from_related_object` on a lead that
does not change the stage. -/
def leadLinked : Pipeline := pipelineSave [] { basePipeline with lead := some 3 }

/-- Instantiation of `pipeline_update_paths`: the lead handler writes no
transition rows, and a lead-object update through
`update_from_related_object` leaves the stage and the log unchanged. -/
theorem pipeline_update_paths_witness :
    (createPipelineFromLead emptyWorld newLead true 11).transitions
      = emptyWorld.transitions
    ∧ ((leadLinked.current_stage = basePipeline.current_stage
          ∧ ([] : List StageTransition) = [])
       ∨ (stageStep basePipeline.current_stage leadLinked.current_stage
          ∧ ([] : List StageTransition) =
              [] ++ [{ pipeline := basePipeline.id,
                       from_stage := basePipeline.current_stage,
                       to_stage := leadLinked.current_stage,
                       transitioned_by := none, transitioned_at := 0 }])) :=
  ⟨pipeline_update_paths.1 emptyWorld newLead true 11,
   pipeline_update_paths.2.2.2.2 [] basePipeline [] (.fromLead newLead) none 0
     leadLinked [] rfl⟩

end Centra
